import Mathlib

/-!
# route53: the request pipeline and the record-set calls

A shallow embedding of `src/route53/request.go` and `src/route53/records.go`.

* Go strings are `String`; the serializer works on their character lists.
* `encoding/xml` marshalling of the record-set request types is written out
  from the struct tags of `records.go` (element names, `a>b` parent chains,
  `omitempty`, text escaping).
* The parts of the program that live outside these two files (the client
  struct with its `IncludeWeight` flag, `sign`, `updateAuth`) and the library
  calls whose result depends on the outside world or on a full XML parser
  (`http.DefaultClient.Do`, `ioutil.ReadAll`, `Decoder.Decode`,
  `url.Values.Encode`) are parameters.
* The world is threaded explicitly; every network call and every credential
  refresh is recorded as an `Event`.
* The `debug` tracing to stderr has no effect on any result and is left out.
-/

set_option maxRecDepth 100000

namespace route53

/-! ## strings -/

/-- Scanner behind `strings.Replace(s, old, new, -1)` for a non-empty `old`:
walk the text left to right, at each position where `old` starts emit `new`
and skip the matched characters (the first argument counts the characters of
a match still to be skipped), otherwise copy one character. -/
def replaceFrom (old new : List Char) : Nat → List Char → List Char
  | _, [] => []
  | skip + 1, _ :: cs => replaceFrom old new skip cs
  | 0, c :: cs =>
    if old.isPrefixOf (c :: cs) then new ++ replaceFrom old new (old.length - 1) cs
    else c :: replaceFrom old new 0 cs

/-- Go `strings.Replace(s, old, new, -1)`: every non-overlapping occurrence of
`old`, leftmost first, is replaced by `new`; an empty `old` matches before
every character and at the end. -/
def stringsReplace (s old new : String) : String :=
  if old.data = [] then ⟨new.data ++ s.data.flatMap (fun c => c :: new.data)⟩
  else ⟨replaceFrom old.data new.data 0 s.data⟩

/-- Go `strings.Contains(s, sub)` as a proposition. -/
def Contains (s sub : String) : Prop := sub.data <:+: s.data

/-- Whether one string contains another can be computed. -/
instance (s sub : String) : Decidable (Contains s sub) := by
  unfold Contains; infer_instance

/-- Constant `xml.Header`. -/
def xmlHeader : String := "<?xml version=\"1.0\" encoding=\"UTF-8\"?>\n"

/-! ## encoding/xml: marshalling -/

/-- Function `isInCharacterRange` of encoding/xml: the code points XML allows. -/
def isInCharacterRange (r : Nat) : Bool :=
  r == 0x09 || r == 0x0A || r == 0x0D ||
  (0x20 ≤ r && r ≤ 0xD7FF) || (0xE000 ≤ r && r ≤ 0xFFFD) || (0x10000 ≤ r && r ≤ 0x10FFFF)

/-- One step of `EscapeString`: the replacement written for one character
(0x22 is the double quote, 0x27 the single quote). -/
def escapeChar (c : Char) : List Char :=
  if c = Char.ofNat 0x22 then "&#34;".data
  else if c = Char.ofNat 0x27 then "&#39;".data
  else if c = '&' then "&amp;".data
  else if c = '<' then "&lt;".data
  else if c = '>' then "&gt;".data
  else if c = '\t' then "&#x9;".data
  else if c = '\n' then "&#xA;".data
  else if c = '\r' then "&#xD;".data
  else if isInCharacterRange c.toNat then [c]
  else [Char.ofNat 0xFFFD]

/-- Printer method `EscapeString` of encoding/xml, used for character data
and attribute values. -/
def escapeString (s : String) : List Char := s.data.flatMap escapeChar

/-- A start tag, the content, and the matching end tag. -/
def element (name : String) (content : List Char) : List Char :=
  '<' :: name.data ++ '>' :: content ++ '<' :: '/' :: name.data ++ ['>']

/-- A string field tagged `omitempty`: nothing when the string is empty. -/
def omitemptyString (name : String) (v : String) : List Char :=
  if v = "" then [] else element name (escapeString v)

/-- Go type `xml.Name`. -/
structure xmlName where
  Space : String := ""
  Local : String := ""
deriving DecidableEq, Repr

/-- Record set of `records.go`; `TTL` is a `uint` and `Weight` a `uint8`
(`Type_` is the field `Type`). -/
structure RRSet where
  Name : String := ""
  Type_ : String := ""
  TTL : Nat := 0
  Values : List String := []
  HealthCheckId : String := ""
  SetIdentifier : String := ""
  Weight : Nat := 0
  HostedZoneId : String := ""
  DNSName : String := ""
  EvaluateTargetHealth : Bool := false
  Failover : String := ""
  Region : String := ""
deriving DecidableEq, Repr

/-- Struct `RRSetChange`. -/
structure RRSetChange where
  Action : String := ""
  RRSet : RRSet := {}
deriving DecidableEq, Repr

/-- Struct `ChangeRRSetRequest`. -/
structure ChangeRRSetRequest where
  XMLName : xmlName := {}
  XMLNS : String := ""
  Comment : String := ""
  Changes : List RRSetChange := []
deriving DecidableEq, Repr

/-- The children of the `AliasTarget` parent: the three fields tagged
`AliasTarget>...,omitempty`, each written only when it is not empty. -/
def marshalAliasFields (rr : RRSet) : List Char :=
  omitemptyString "HostedZoneId" rr.HostedZoneId ++
  omitemptyString "DNSName" rr.DNSName ++
  (if rr.EvaluateTargetHealth then element "EvaluateTargetHealth" "true".data else [])

/-- The `AliasTarget` element: the parent of a `a>b` chain is opened before
the `omitempty` test of its children, so it is written even when all three
children are omitted. -/
def marshalAliasTarget (rr : RRSet) : List Char :=
  element "AliasTarget" (marshalAliasFields rr)

/-- Fields of `RRSet` that precede the alias fields. -/
def marshalRRSetHead (rr : RRSet) : List Char :=
  element "Name" (escapeString rr.Name) ++
  element "Type" (escapeString rr.Type_) ++
  element "TTL" (Nat.repr rr.TTL).data ++
  element "ResourceRecords"
    (element "ResourceRecord"
      (rr.Values.flatMap (fun v => element "Value" (escapeString v)))) ++
  omitemptyString "HealthCheckId" rr.HealthCheckId ++
  omitemptyString "SetIdentifier" rr.SetIdentifier ++
  (if rr.Weight = 0 then [] else element "Weight" (Nat.repr rr.Weight).data)

/-- Fields of `RRSet` that follow the alias fields. -/
def marshalRRSetTail (rr : RRSet) : List Char :=
  omitemptyString "Failover" rr.Failover ++
  omitemptyString "Region" rr.Region

/-- Content of a `ResourceRecordSet` element, field by field in declaration
order. -/
def marshalRRSet (rr : RRSet) : List Char :=
  marshalRRSetHead rr ++ marshalAliasTarget rr ++ marshalRRSetTail rr

/-- One `Change` element. -/
def marshalChange (c : RRSetChange) : List Char :=
  element "Change"
    (element "Action" (escapeString c.Action) ++
     element "ResourceRecordSet" (marshalRRSet c.RRSet))

/-- What `xml.Marshal` writes for a `*ChangeRRSetRequest`: the root element is
named by the tag of `XMLName`, `XMLNS` is the attribute `xmlns`, `Comment`
and the changes share the parent `ChangeBatch`. -/
def marshalChangeRRSetRequest (r : ChangeRRSetRequest) : String :=
  ⟨"<ChangeResourceRecordSetsRequest xmlns=\"".data ++ escapeString r.XMLNS ++ "\">".data ++
    element "ChangeBatch"
      (element "Comment" (escapeString r.Comment) ++
       element "Changes" (r.Changes.flatMap marshalChange)) ++
    "</ChangeResourceRecordSetsRequest>".data⟩

/-! ## request.go -/

/-- Go type `url.Values`. -/
abbrev Values := List (String × List String)

/-- Go type `url.URL`, the fields the pipeline sets. -/
structure URL where
  Scheme : String
  Host : String
  Path : String
  RawQuery : String
deriving DecidableEq, Repr

/-- Struct `request`; `params` and `body` may be nil. -/
structure request (β : Type) where
  method : String
  path : String
  params : Option Values := none
  body : Option β := none

/-- Struct `errorResponse`. -/
structure errorResponse where
  Type_ : String := ""
  Code : String := ""
  Message : String := ""
  RequestID : String := ""
deriving DecidableEq, Repr

/-- Go type `http.Request`, the fields `doRun` fills in. -/
structure HTTPRequest where
  Method : String
  URL : URL
  Proto : String
  ProtoMajor : Nat
  ProtoMinor : Nat
  Header : List (String × List String)
  Body : Option String
deriving DecidableEq, Repr

/-- Go type `http.Response` as `doRun` sees it: the status code, and what
`ioutil.ReadAll(hres.Body)` gives (the whole body, or a read error). -/
structure HTTPResponse where
  StatusCode : Nat
  Body : Except String String

/-- The struct `Route53`, declared outside the two source files: its flag
`IncludeWeight` and its methods `sign` and `updateAuth`, acting on the
world state `σ` (which holds the credentials). -/
structure Route53 (σ : Type) where
  IncludeWeight : Bool
  sign : σ → HTTPRequest → HTTPRequest
  updateAuth : σ → σ

/-- The library calls of `doRun`: `url.Values.Encode`, `xml.Marshal` on the
body type `β`, `http.DefaultClient.Do`, and `Decoder.Decode` into an
`errorResponse` and into the response shape `ρ` (which updates the value it
is given and may fail). -/
structure Lib (σ β ρ : Type) where
  Encode : Values → String
  Marshal : β → Except String String
  Do : σ → HTTPRequest → σ × Except String HTTPResponse
  DecodeError : String → Except String errorResponse
  Decode : String → ρ → ρ × Option String

/-- What a call to `doRun` did to the outside world. -/
inductive Event where
  | net (hreq : HTTPRequest)
  | refresh
deriving DecidableEq, Repr

/-- Result of a call to `doRun`: the returned error (`none` is nil), the
caller's response object, the world, and the events in order. -/
structure Outcome (σ ρ : Type) where
  err : Option String
  res : ρ
  st : σ
  events : List Event

/-- Method `request.url`. -/
def request.url {β : Type} (encode : Values → String) (r : request β) : URL :=
  let url : URL := { Scheme := "https", Host := "route53.amazonaws.com", Path := "", RawQuery := "" }
  let url := { url with Path := r.path }
  match r.params with
  | some params => { url with RawQuery := encode params }
  | none => url

/-- The body text `doRun` attaches for marshalled `data` (request.go 77-81).
When `IncludeWeight` is false the second replacement starts again from
`data`. -/
def payload (includeWeight : Bool) (data : String) : String :=
  let body_s11n := stringsReplace data "<AliasTarget></AliasTarget>" ""
  let body_s11n := if !includeWeight then stringsReplace data "<Weight>0</Weight>" "" else body_s11n
  xmlHeader ++ body_s11n

/-- The first part of `doRun` (request.go 45-82): build and sign the HTTP
request, then marshal and attach the body when there is one. -/
def buildRequest {σ β ρ : Type} (r53 : Route53 σ) (lib : Lib σ β ρ) (req : request β) (st : σ) :
    Except String HTTPRequest :=
  let hreq : HTTPRequest :=
    { Method := req.method, URL := req.url lib.Encode, Proto := "HTTP/1.1",
      ProtoMajor := 1, ProtoMinor := 1, Header := [], Body := none }
  let hreq := r53.sign st hreq
  match req.body with
  | none => .ok hreq
  | some body =>
    match lib.Marshal body with
    | .error err => .error err
    | .ok data => .ok { hreq with Body := some (payload r53.IncludeWeight data) }

/-- Method `Route53.doRun`. -/
def doRun {σ β ρ : Type} (r53 : Route53 σ) (lib : Lib σ β ρ) (req : request β) (res : ρ)
    (try_ : Nat) (st : σ) : Outcome σ ρ :=
  match buildRequest r53 lib req st with
  | .error err => ⟨some err, res, st, []⟩
  | .ok hreq =>
    match lib.Do st hreq with
    | (st1, .error err) => ⟨some err, res, st1, [.net hreq]⟩
    | (st1, .ok hres) =>
      match hres.Body with
      | .error err => ⟨some err, res, st1, [.net hreq]⟩
      | .ok body =>
        if h : hres.StatusCode = 403 ∧ try_ = 0 then
          let retried := doRun r53 lib req res (try_ + 1) (r53.updateAuth st1)
          let decoded := lib.Decode body retried.res
          ⟨decoded.2, decoded.1, retried.st, .net hreq :: .refresh :: retried.events⟩
        else if hres.StatusCode ≠ 200 then
          match lib.DecodeError body with
          | .error _ => ⟨some ("could not parse: " ++ body), res, st1, [.net hreq]⟩
          | .ok eres => ⟨some (eres.Code ++ ": " ++ eres.Message), res, st1, [.net hreq]⟩
        else
          let decoded := lib.Decode body res
          ⟨decoded.2, decoded.1, st1, [.net hreq]⟩
termination_by 1 - try_
decreasing_by omega

/-- Method `Route53.run`. -/
def run {σ β ρ : Type} (r53 : Route53 σ) (lib : Lib σ β ρ) (req : request β) (res : ρ) (st : σ) :
    Outcome σ ρ :=
  doRun r53 lib req res 0 st

/-! ## records.go -/

/-- Struct `ChangeRRSetsResponse`; the type `ChangeInfo` is declared outside
the two source files and is a parameter. -/
structure ChangeRRSetsResponse (CI : Type) where
  XMLName : xmlName := {}
  ChangeInfo : CI

/-- Struct `ListRRSetResponse`. -/
structure ListRRSetResponse where
  XMLName : xmlName := {}
  RRSets : List RRSet := []
  IsTruncated : Bool := false
  NextRecordName : String := ""
  NextRecordIdentifier : String := ""
  MaxItems : Nat := 0
deriving DecidableEq, Repr

/-- The library calls left open once the body type is fixed: the transport
and the decoders. -/
structure Wire (σ ρ : Type) where
  Encode : Values → String
  Do : σ → HTTPRequest → σ × Except String HTTPResponse
  DecodeError : String → Except String errorResponse
  Decode : String → ρ → ρ × Option String

/-- The library for a call whose body, if any, is a `*ChangeRRSetRequest`. -/
def Wire.lib {σ ρ : Type} (wire : Wire σ ρ) : Lib σ ChangeRRSetRequest ρ :=
  { Encode := wire.Encode, Marshal := fun b => .ok (marshalChangeRRSetRequest b),
    Do := wire.Do, DecodeError := wire.DecodeError, Decode := wire.Decode }

/-- The request `ChangeRRSet` builds (records.go 65-75). -/
def changeRequest (zoneId : String) (changes : List RRSetChange) (comment : String) :
    request ChangeRRSetRequest :=
  { method := "POST",
    path := "/2012-12-12/hostedzone/" ++ zoneId ++ "/rrset",
    body := some { XMLNS := "https://route53.amazonaws.com/doc/2012-12-12/",
                   Comment := comment, Changes := changes } }

/-- Method `Route53.ChangeRRSet`: the returned pair, and the world after the
call. -/
def ChangeRRSet {σ CI : Type} [Inhabited CI] (r53 : Route53 σ)
    (wire : Wire σ (ChangeRRSetsResponse CI)) (zoneId : String) (changes : List RRSetChange)
    (comment : String) (st : σ) : (CI × Option String) × σ :=
  let xmlRes : ChangeRRSetsResponse CI := { ChangeInfo := default }
  let out := run r53 wire.lib (changeRequest zoneId changes comment) xmlRes st
  match out.err with
  | some err => ((default, some err), out.st)
  | none => ((out.res.ChangeInfo, none), out.st)

/-- The request `ListRRSets` builds (records.go 87-90); it has no body, so
the body type plays no part. -/
def listRequest (zoneId : String) : request ChangeRRSetRequest :=
  { method := "GET", path := "/2012-12-12/hostedzone/" ++ zoneId ++ "/rrset" }

/-- Method `Route53.ListRRSets`: the returned pair, and the world after the
call. -/
def ListRRSets {σ : Type} (r53 : Route53 σ) (wire : Wire σ ListRRSetResponse)
    (zoneId : String) (st : σ) : (List RRSet × Option String) × σ :=
  let xmlRes : ListRRSetResponse := {}
  let out := run r53 wire.lib (listRequest zoneId) xmlRes st
  match out.err with
  | some err => (([], some err), out.st)
  | none =>
    if out.res.IsTruncated then (([], some "cannot handle truncated responses"), out.st)
    else ((out.res.RRSets, none), out.st)

/-- The body text of the HTTP request `doRun` builds and hands to the
transport (`none` when the request has no body or cannot be marshalled). -/
def sentBody {σ β ρ : Type} (r53 : Route53 σ) (lib : Lib σ β ρ) (req : request β) (st : σ) :
    Option String :=
  match buildRequest r53 lib req st with
  | .ok hreq => hreq.Body
  | .error _ => none

/-! ## counting what a call did -/

/-- Number of network calls among the events. -/
def netCalls : List Event → Nat
  | [] => 0
  | .net _ :: ev => netCalls ev + 1
  | .refresh :: ev => netCalls ev

/-- Number of credential refreshes among the events. -/
def refreshes : List Event → Nat
  | [] => 0
  | .net _ :: ev => refreshes ev
  | .refresh :: ev => refreshes ev + 1

/-- The answer to the first attempt of `run`, when the request could be built
and the transport returned a response. -/
def firstAnswer {σ β ρ : Type} (r53 : Route53 σ) (lib : Lib σ β ρ) (req : request β) (st : σ) :
    Option HTTPResponse :=
  match buildRequest r53 lib req st with
  | .error _ => none
  | .ok hreq =>
    match (lib.Do st hreq).2 with
    | .error _ => none
    | .ok hres => some hres

/-- The first attempt was answered with status 403 and its body was read in
full: the condition under which `doRun` refreshes and retries. -/
def firstForbidden {σ β ρ : Type} (r53 : Route53 σ) (lib : Lib σ β ρ) (req : request β) (st : σ) :
    Bool :=
  match firstAnswer r53 lib req st with
  | none => false
  | some hres =>
    match hres.Body with
    | .error _ => false
    | .ok _ => hres.StatusCode == 403

/-! ## text predicates used in the serializer proofs -/

/-- No `<` in the text is followed by `A` or `W`, and the text does not end
in `<`: no occurrence of a pattern that begins `<A` or `<W` can start in it. -/
def safeLt : List Char → Bool
  | [] => true
  | [c] => c != '<'
  | c :: d :: rest => (c != '<' || (d != 'A' && d != 'W')) && safeLt (d :: rest)

/-- No shift of `old` lines up with the start `q` of a text. -/
def startsApart (old q : List Char) : Bool :=
  (List.range old.length).all
    (fun k => !((old.drop k).isPrefixOf q || q.isPrefixOf (old.drop k)))

/-- The expected text of the `AliasTarget` element of a record set, written
out child by child: a child appears exactly when its field is not empty (for
the flag: when it is true). Compared with `marshalAliasTarget` below. -/
def aliasTargetText (rr : RRSet) : List Char :=
  "<AliasTarget>".data ++
  (if rr.HostedZoneId = "" then []
   else "<HostedZoneId>".data ++ escapeString rr.HostedZoneId ++ "</HostedZoneId>".data) ++
  (if rr.DNSName = "" then []
   else "<DNSName>".data ++ escapeString rr.DNSName ++ "</DNSName>".data) ++
  (if rr.EvaluateTargetHealth then "<EvaluateTargetHealth>true</EvaluateTargetHealth>".data
   else []) ++
  "</AliasTarget>".data

/-! ## sample worlds

Concrete clients, transports and decoders on which the calls are evaluated.
The world is the number of network calls made so far. The decoder tables give
what `Decoder.Decode` returns on the bodies used here. -/

/-- A client whose `sign` adds nothing and whose `updateAuth` leaves the
world as it is. -/
def sampleRoute53 (includeWeight : Bool) : Route53 Nat :=
  { IncludeWeight := includeWeight, sign := fun _ hreq => hreq, updateAuth := fun st => st }

/-- A transport that answers its n-th call with the n-th entry of a list. -/
def replay (answers : List (Except String HTTPResponse)) (st : Nat) (_ : HTTPRequest) :
    Nat × Except String HTTPResponse :=
  (st + 1, answers.getD st (.error "dial tcp: connection refused"))

/-- An error document for an invalid security token. -/
def forbiddenBody : String :=
  "<ErrorResponse xmlns=\"https://route53.amazonaws.com/doc/2012-12-12/\"><Error><Type>Sender</Type><Code>InvalidClientTokenId</Code><Message>The security token included in the request is invalid</Message></Error><RequestId>r-1</RequestId></ErrorResponse>"

/-- An error document for a bad signature. -/
def signatureBody : String :=
  "<ErrorResponse xmlns=\"https://route53.amazonaws.com/doc/2012-12-12/\"><Error><Type>Sender</Type><Code>SignatureDoesNotMatch</Code><Message>The request signature we calculated does not match the signature you provided</Message></Error><RequestId>r-2</RequestId></ErrorResponse>"

/-- A body that is not XML. -/
def gatewayBody : String := "502 Bad Gateway"

/-- A complete list document with one record. -/
def listBody : String :=
  "<ListResourceRecordSetsResponse xmlns=\"https://route53.amazonaws.com/doc/2012-12-12/\"><ResourceRecordSets><ResourceRecordSet><Name>a.example.com.</Name><Type>A</Type><TTL>300</TTL><ResourceRecords><ResourceRecord><Value>192.0.2.1</Value></ResourceRecord></ResourceRecords></ResourceRecordSet></ResourceRecordSets><IsTruncated>false</IsTruncated><MaxItems>100</MaxItems></ListResourceRecordSetsResponse>"

/-- A truncated list document with one record. -/
def truncatedBody : String :=
  "<ListResourceRecordSetsResponse xmlns=\"https://route53.amazonaws.com/doc/2012-12-12/\"><ResourceRecordSets><ResourceRecordSet><Name>a.example.com.</Name><Type>A</Type><TTL>300</TTL><ResourceRecords><ResourceRecord><Value>192.0.2.1</Value></ResourceRecord></ResourceRecords></ResourceRecordSet></ResourceRecordSets><IsTruncated>true</IsTruncated><NextRecordName>b.example.com.</NextRecordName><MaxItems>1</MaxItems></ListResourceRecordSetsResponse>"

/-- A change acknowledgement. -/
def changeBody : String :=
  "<ChangeResourceRecordSetsResponse xmlns=\"https://route53.amazonaws.com/doc/2012-12-12/\"><ChangeInfo><Id>/change/C1</Id><Status>PENDING</Status><SubmittedAt>2013-01-01T00:00:00Z</SubmittedAt></ChangeInfo></ChangeResourceRecordSetsResponse>"

/-- The record of `listBody` and `truncatedBody`. -/
def sampleRecord : RRSet :=
  { Name := "a.example.com.", Type_ := "A", TTL := 300, Values := ["192.0.2.1"] }

/-- A record that is an alias, with the health flag off. -/
def aliasRecord : RRSet :=
  { Name := "www.example.com.", Type_ := "A", HostedZoneId := "Z2FDTNDATAQYW2",
    DNSName := "d111111abcdef8.cloudfront.net." }

/-- A weighted record whose weight is zero. -/
def weightedRecord : RRSet :=
  { Name := "w.example.com.", Type_ := "A", TTL := 60, Values := ["192.0.2.1"],
    SetIdentifier := "blue", Weight := 0 }

/-- The namespace of the service. -/
def xmlns : String := "https://route53.amazonaws.com/doc/2012-12-12/"

/-- `Decode` into an `errorResponse` on the sample bodies: the two error
documents decode, anything else is not an XML document. -/
def decodeErrorTable (body : String) : Except String errorResponse :=
  if body = forbiddenBody then
    .ok { Type_ := "Sender", Code := "InvalidClientTokenId",
          Message := "The security token included in the request is invalid",
          RequestID := "r-1" }
  else if body = signatureBody then
    .ok { Type_ := "Sender", Code := "SignatureDoesNotMatch",
          Message := "The request signature we calculated does not match the signature you provided",
          RequestID := "r-2" }
  else .error "EOF"

/-- `Decode` into a `ListRRSetResponse` on the sample bodies: a list document
fills the fields it carries and appends its records, a document with another
root element is refused before any field is set. -/
def decodeListTable (body : String) (res : ListRRSetResponse) :
    ListRRSetResponse × Option String :=
  if body = listBody then
    ({ res with XMLName := ⟨xmlns, "ListResourceRecordSetsResponse"⟩,
                RRSets := res.RRSets ++ [sampleRecord], IsTruncated := false,
                MaxItems := 100 }, none)
  else if body = truncatedBody then
    ({ res with XMLName := ⟨xmlns, "ListResourceRecordSetsResponse"⟩,
                RRSets := res.RRSets ++ [sampleRecord], IsTruncated := true,
                NextRecordName := "b.example.com.", MaxItems := 1 }, none)
  else if body = forbiddenBody ∨ body = signatureBody then
    (res, some "expected element type <ListResourceRecordSetsResponse> but have <ErrorResponse>")
  else (res, some "EOF")

/-- Modelled from the spec: the struct `ChangeInfo`, declared outside the two
source files ("server-returned acknowledgement of a submitted batch (opaque
id/status/timestamp fields)"). Used only to evaluate `ChangeRRSet`. -/
structure ChangeInfo where
  Id : String := ""
  Status : String := ""
  SubmittedAt : String := ""
deriving DecidableEq, Repr, Inhabited

/-- `Decode` into a `ChangeRRSetsResponse` on the sample bodies. -/
def decodeChangeTable (body : String) (res : ChangeRRSetsResponse ChangeInfo) :
    ChangeRRSetsResponse ChangeInfo × Option String :=
  if body = changeBody then
    ({ XMLName := ⟨xmlns, "ChangeResourceRecordSetsResponse"⟩,
       ChangeInfo := { Id := "/change/C1", Status := "PENDING",
                       SubmittedAt := "2013-01-01T00:00:00Z" } }, none)
  else if body = forbiddenBody ∨ body = signatureBody then
    (res, some "expected element type <ChangeResourceRecordSetsResponse> but have <ErrorResponse>")
  else (res, some "EOF")

/-- The list call over a replayed transport. -/
def listWire (answers : List (Except String HTTPResponse)) : Wire Nat ListRRSetResponse :=
  { Encode := fun _ => "", Do := replay answers, DecodeError := decodeErrorTable,
    Decode := decodeListTable }

/-- The change call over a replayed transport. -/
def changeWire (answers : List (Except String HTTPResponse)) :
    Wire Nat (ChangeRRSetsResponse ChangeInfo) :=
  { Encode := fun _ => "", Do := replay answers, DecodeError := decodeErrorTable,
    Decode := decodeChangeTable }

/-- First a 403 with an error document, then a 200 with a list document. -/
def forbiddenThenOk : List (Except String HTTPResponse) :=
  [.ok ⟨403, .ok forbiddenBody⟩, .ok ⟨200, .ok listBody⟩]

/-- A 403 with an error document on both attempts. -/
def forbiddenTwice : List (Except String HTTPResponse) :=
  [.ok ⟨403, .ok forbiddenBody⟩, .ok ⟨403, .ok signatureBody⟩]

/-- First a 403 whose body is a list document, then a connection failure. -/
def forbiddenThenReset : List (Except String HTTPResponse) :=
  [.ok ⟨403, .ok listBody⟩, .error "read tcp: connection reset by peer"]

/-- A 403 whose body cannot be read. -/
def forbiddenUnread : List (Except String HTTPResponse) :=
  [.ok ⟨403, .error "unexpected EOF"⟩]

/-- First a 403 with an error document, then a 200 with a change
acknowledgement. -/
def forbiddenThenChanged : List (Except String HTTPResponse) :=
  [.ok ⟨403, .ok forbiddenBody⟩, .ok ⟨200, .ok changeBody⟩]

/-! ## the executor, case by case -/

theorem doRun_build_error {σ β ρ : Type} (r53 : Route53 σ) (lib : Lib σ β ρ) (req : request β)
    (res : ρ) (try_ : Nat) (st : σ) {err : String}
    (hb : buildRequest r53 lib req st = .error err) :
    doRun r53 lib req res try_ st = ⟨some err, res, st, []⟩ := by
  rw [doRun, hb]

theorem doRun_do_error {σ β ρ : Type} (r53 : Route53 σ) (lib : Lib σ β ρ) (req : request β)
    (res : ρ) (try_ : Nat) (st : σ) {st1 : σ} {hreq : HTTPRequest} {err : String}
    (hb : buildRequest r53 lib req st = .ok hreq)
    (hd : lib.Do st hreq = (st1, .error err)) :
    doRun r53 lib req res try_ st = ⟨some err, res, st1, [.net hreq]⟩ := by
  rw [doRun, hb]; simp only [hd]

theorem doRun_read_error {σ β ρ : Type} (r53 : Route53 σ) (lib : Lib σ β ρ) (req : request β)
    (res : ρ) (try_ : Nat) (st : σ) {st1 : σ} {hreq : HTTPRequest} {hres : HTTPResponse}
    {err : String}
    (hb : buildRequest r53 lib req st = .ok hreq)
    (hd : lib.Do st hreq = (st1, .ok hres)) (hr : hres.Body = .error err) :
    doRun r53 lib req res try_ st = ⟨some err, res, st1, [.net hreq]⟩ := by
  rw [doRun, hb]; simp only [hd, hr]

/-- The first attempt on a 403: refresh, call `doRun` again at `try = 1`,
drop what it returns, and decode the body of the 403 into the response. -/
theorem doRun_forbidden_first {σ β ρ : Type} (r53 : Route53 σ) (lib : Lib σ β ρ)
    (req : request β) (res : ρ) (st : σ) {st1 : σ} {hreq : HTTPRequest} {hres : HTTPResponse}
    {body : String}
    (hb : buildRequest r53 lib req st = .ok hreq)
    (hd : lib.Do st hreq = (st1, .ok hres)) (hr : hres.Body = .ok body)
    (hs : hres.StatusCode = 403) :
    doRun r53 lib req res 0 st =
      ⟨(lib.Decode body (doRun r53 lib req res 1 (r53.updateAuth st1)).res).2,
       (lib.Decode body (doRun r53 lib req res 1 (r53.updateAuth st1)).res).1,
       (doRun r53 lib req res 1 (r53.updateAuth st1)).st,
       .net hreq :: .refresh :: (doRun r53 lib req res 1 (r53.updateAuth st1)).events⟩ := by
  rw [doRun, hb]; simp only [hd, hr, hs, and_self, dite_true, Nat.zero_add]

theorem doRun_remote {σ β ρ : Type} (r53 : Route53 σ) (lib : Lib σ β ρ) (req : request β)
    (res : ρ) (try_ : Nat) (st : σ) {st1 : σ} {hreq : HTTPRequest} {hres : HTTPResponse}
    {body : String}
    (hb : buildRequest r53 lib req st = .ok hreq)
    (hd : lib.Do st hreq = (st1, .ok hres)) (hr : hres.Body = .ok body)
    (h200 : hres.StatusCode ≠ 200) (h403 : ¬ (hres.StatusCode = 403 ∧ try_ = 0)) :
    doRun r53 lib req res try_ st =
      match lib.DecodeError body with
      | .error _ => ⟨some ("could not parse: " ++ body), res, st1, [.net hreq]⟩
      | .ok eres => ⟨some (eres.Code ++ ": " ++ eres.Message), res, st1, [.net hreq]⟩ := by
  rw [doRun, hb]; simp only [hd, hr, h403, h200, dite_false, ne_eq, not_false_eq_true, ite_true]

theorem doRun_ok {σ β ρ : Type} (r53 : Route53 σ) (lib : Lib σ β ρ) (req : request β)
    (res : ρ) (try_ : Nat) (st : σ) {st1 : σ} {hreq : HTTPRequest} {hres : HTTPResponse}
    {body : String}
    (hb : buildRequest r53 lib req st = .ok hreq)
    (hd : lib.Do st hreq = (st1, .ok hres)) (hr : hres.Body = .ok body)
    (h200 : hres.StatusCode = 200) :
    doRun r53 lib req res try_ st =
      ⟨(lib.Decode body res).2, (lib.Decode body res).1, st1, [.net hreq]⟩ := by
  rw [doRun, hb]; simp only [hd, hr, h200]; simp

/-- Whether the request can be built does not depend on the world. -/
theorem buildRequest_state_indep {σ β ρ : Type} (r53 : Route53 σ) (lib : Lib σ β ρ)
    (req : request β) {st : σ} {hreq : HTTPRequest} (st2 : σ)
    (hb : buildRequest r53 lib req st = .ok hreq) :
    ∃ hreq2, buildRequest r53 lib req st2 = .ok hreq2 := by
  unfold buildRequest at hb ⊢
  cases hbody : req.body with
  | none => simp
  | some b =>
    simp only [hbody] at hb ⊢
    cases hm : lib.Marshal b with
    | error e => simp [hm] at hb
    | ok data => simp

/-- A call at `try = 1` never refreshes and makes at most one network call. -/
theorem doRun_retry_events {σ β ρ : Type} (r53 : Route53 σ) (lib : Lib σ β ρ) (req : request β)
    (res : ρ) (st : σ) :
    refreshes (doRun r53 lib req res 1 st).events = 0 ∧
      netCalls (doRun r53 lib req res 1 st).events ≤ 1 := by
  cases hb : buildRequest r53 lib req st with
  | error e => rw [doRun_build_error r53 lib req res 1 st hb]; simp [refreshes, netCalls]
  | ok hreq =>
    rcases hd : lib.Do st hreq with ⟨st1, ans⟩
    cases ans with
    | error e => rw [doRun_do_error r53 lib req res 1 st hb hd]; simp [refreshes, netCalls]
    | ok hres =>
      cases hr : hres.Body with
      | error e => rw [doRun_read_error r53 lib req res 1 st hb hd hr]; simp [refreshes, netCalls]
      | ok body =>
        by_cases h200 : hres.StatusCode = 200
        · rw [doRun_ok r53 lib req res 1 st hb hd hr h200]; simp [refreshes, netCalls]
        · rw [doRun_remote r53 lib req res 1 st hb hd hr h200 (by simp)]
          cases lib.DecodeError body <;> simp [refreshes, netCalls]

/-- A call at `try = 1` makes exactly one network call once the request is built. -/
theorem doRun_retry_net {σ β ρ : Type} (r53 : Route53 σ) (lib : Lib σ β ρ) (req : request β)
    (res : ρ) (st : σ) {hreq : HTTPRequest}
    (hb : buildRequest r53 lib req st = .ok hreq) :
    netCalls (doRun r53 lib req res 1 st).events = 1 := by
  rcases hd : lib.Do st hreq with ⟨st1, ans⟩
  cases ans with
  | error e => rw [doRun_do_error r53 lib req res 1 st hb hd]; simp [netCalls]
  | ok hres =>
    cases hr : hres.Body with
    | error e => rw [doRun_read_error r53 lib req res 1 st hb hd hr]; simp [netCalls]
    | ok body =>
      by_cases h200 : hres.StatusCode = 200
      · rw [doRun_ok r53 lib req res 1 st hb hd hr h200]; simp [netCalls]
      · rw [doRun_remote r53 lib req res 1 st hb hd hr h200 (by simp)]
        cases lib.DecodeError body <;> simp [netCalls]

theorem firstForbidden_iff {σ β ρ : Type} (r53 : Route53 σ) (lib : Lib σ β ρ) (req : request β)
    (st : σ) :
    firstForbidden r53 lib req st = true ↔
      ∃ hres body, firstAnswer r53 lib req st = some hres ∧ hres.StatusCode = 403 ∧
        hres.Body = .ok body := by
  unfold firstForbidden
  cases hfa : firstAnswer r53 lib req st with
  | none => simp
  | some hres =>
    cases hr : hres.Body with
    | error e => simp [hr]
    | ok body => simp [hr]

theorem run_events_forbidden {σ β ρ : Type} (r53 : Route53 σ) (lib : Lib σ β ρ) (req : request β)
    (res : ρ) (st : σ) (h : firstForbidden r53 lib req st = true) :
    refreshes (run r53 lib req res st).events = 1 ∧
      netCalls (run r53 lib req res st).events = 2 := by
  obtain ⟨hres, body, hfa, hs, hr⟩ := (firstForbidden_iff r53 lib req st).mp h
  unfold firstAnswer at hfa
  cases hb : buildRequest r53 lib req st with
  | error e => simp [hb] at hfa
  | ok hreq =>
    rcases hd : lib.Do st hreq with ⟨st1, ans⟩
    simp only [hb, hd] at hfa
    cases ans with
    | error e => simp at hfa
    | ok hres2 =>
      simp only [Option.some.injEq] at hfa
      subst hfa
      obtain ⟨hreq2, hb2⟩ := buildRequest_state_indep r53 lib req (r53.updateAuth st1) hb
      have h1 := doRun_retry_events r53 lib req res (r53.updateAuth st1)
      have h2 := doRun_retry_net r53 lib req res (r53.updateAuth st1) hb2
      unfold run
      rw [doRun_forbidden_first r53 lib req res st hb hd hr hs]
      simp [refreshes, netCalls, h1.1, h2]

theorem run_events_not_forbidden {σ β ρ : Type} (r53 : Route53 σ) (lib : Lib σ β ρ)
    (req : request β) (res : ρ) (st : σ) (h : firstForbidden r53 lib req st = false) :
    refreshes (run r53 lib req res st).events = 0 ∧
      netCalls (run r53 lib req res st).events ≤ 1 := by
  unfold run
  cases hb : buildRequest r53 lib req st with
  | error e => rw [doRun_build_error r53 lib req res 0 st hb]; simp [refreshes, netCalls]
  | ok hreq =>
    rcases hd : lib.Do st hreq with ⟨st1, ans⟩
    cases ans with
    | error e => rw [doRun_do_error r53 lib req res 0 st hb hd]; simp [refreshes, netCalls]
    | ok hres =>
      cases hr : hres.Body with
      | error e => rw [doRun_read_error r53 lib req res 0 st hb hd hr]; simp [refreshes, netCalls]
      | ok body =>
        have hs : hres.StatusCode ≠ 403 := by
          intro hs
          have : firstForbidden r53 lib req st = true :=
            (firstForbidden_iff r53 lib req st).mpr
              ⟨hres, body, by simp [firstAnswer, hb, hd], hs, hr⟩
          rw [h] at this
          exact Bool.noConfusion this
        by_cases h200 : hres.StatusCode = 200
        · rw [doRun_ok r53 lib req res 0 st hb hd hr h200]; simp [refreshes, netCalls]
        · rw [doRun_remote r53 lib req res 0 st hb hd hr h200 (by simp [hs])]
          cases lib.DecodeError body <;> simp [refreshes, netCalls]

/-! ## the replacement scan -/

theorem replaceFrom_skip (old new : List Char) (k : Nat) (l : List Char) :
    replaceFrom old new k l = replaceFrom old new 0 (l.drop k) := by
  induction l generalizing k with
  | nil => cases k <;> simp [replaceFrom]
  | cons c cs ih =>
    cases k with
    | zero => simp
    | succ k => simp only [replaceFrom, List.drop_succ_cons]; exact ih k

theorem replaceFrom_cons_no_match (old new : List Char) (c : Char) (cs : List Char)
    (h : ¬ old <+: c :: cs) :
    replaceFrom old new 0 (c :: cs) = c :: replaceFrom old new 0 cs := by
  have : old.isPrefixOf (c :: cs) = false := by
    rw [← Bool.not_eq_true, List.isPrefixOf_iff_prefix]; exact h
  simp [replaceFrom, this]

theorem replaceFrom_at_match (old new : List Char) (l : List Char) (hold : old ≠ [])
    (h : old <+: l) :
    replaceFrom old new 0 l = new ++ replaceFrom old new 0 (l.drop old.length) := by
  cases l with
  | nil => exact absurd (List.prefix_nil.mp h) hold
  | cons c cs =>
    have : old.isPrefixOf (c :: cs) = true := List.isPrefixOf_iff_prefix.mpr h
    simp only [replaceFrom, this, if_true]
    rw [replaceFrom_skip]
    cases old with
    | nil => exact absurd rfl hold
    | cons o os => simp

/-- Where no occurrence of `old` starts inside `m`, the scan copies `m`. -/
theorem replaceFrom_copy (old new m b : List Char)
    (hI : ∀ m2, m2 ≠ [] → m2 <:+ m → ¬ old <+: m2 ++ b) :
    ∀ m2, m2 <:+ m → replaceFrom old new 0 (m2 ++ b) = m2 ++ replaceFrom old new 0 b := by
  intro m2
  induction m2 with
  | nil => intro _; simp
  | cons c m3 ih =>
    intro hs
    have h3 : m3 <:+ m := (List.suffix_cons c m3).trans hs
    have hn : ¬ old <+: c :: (m3 ++ b) := by simpa using hI (c :: m3) (by simp) hs
    rw [List.cons_append, replaceFrom_cons_no_match _ _ _ _ hn, ih h3, List.cons_append]

/-- A piece `m` of the text survives the replacement when no occurrence of
`old` can start inside it or run into it from the left. -/
theorem replaceFrom_keep (old new m b : List Char) (hold : old ≠ [])
    (hS : ∀ k, 0 < k → k < old.length → ¬ old.drop k <+: m ++ b)
    (hI : ∀ m2, m2 ≠ [] → m2 <:+ m → ¬ old <+: m2 ++ b) :
    ∀ n (a : List Char), a.length ≤ n →
      ∃ a2, replaceFrom old new 0 (a ++ (m ++ b)) = a2 ++ (m ++ replaceFrom old new 0 b) := by
  intro n
  induction n with
  | zero =>
    intro a ha
    have : a = [] := List.length_eq_zero.mp (Nat.le_zero.mp ha)
    subst this
    exact ⟨[], by simpa using replaceFrom_copy old new m b hI m (List.suffix_refl m)⟩
  | succ n ih =>
    intro a ha
    cases a with
    | nil => exact ⟨[], by simpa using replaceFrom_copy old new m b hI m (List.suffix_refl m)⟩
    | cons c a1 =>
      have ha1 : a1.length ≤ n := by simpa using ha
      by_cases hp : old <+: (c :: a1) ++ (m ++ b)
      · have hlen : old.length ≤ (c :: a1).length := by
          by_contra hlt
          have hlt : (c :: a1).length < old.length := Nat.lt_of_not_le hlt
          obtain ⟨t, ht⟩ := hp
          have hd : old.drop (c :: a1).length <+: m ++ b := by
            refine ⟨t, ?_⟩
            have := congrArg (List.drop (c :: a1).length) ht
            rw [List.drop_append_of_le_length (Nat.le_of_lt hlt), List.drop_left] at this
            exact this
          exact hS _ (by simp) hlt hd
        rw [replaceFrom_at_match old new _ hold hp, List.drop_append_of_le_length hlen]
        obtain ⟨a2, h2⟩ := ih ((c :: a1).drop old.length) (by
          have : ((c :: a1).drop old.length).length ≤ a1.length := by
            rw [List.length_drop]
            have : 0 < old.length := List.length_pos.mpr hold
            simp only [List.length_cons]; omega
          omega)
        exact ⟨new ++ a2, by rw [h2]; simp⟩
      · have hn : ¬ old <+: c :: (a1 ++ (m ++ b)) := by simpa using hp
        rw [List.cons_append, replaceFrom_cons_no_match _ _ _ _ hn]
        obtain ⟨a2, h2⟩ := ih a1 ha1
        exact ⟨c :: a2, by rw [h2]; simp⟩

theorem safeLt_tail {c : Char} {l : List Char} (h : safeLt (c :: l) = true) : safeLt l = true := by
  cases l with
  | nil => rfl
  | cons d rest => simp only [safeLt, Bool.and_eq_true] at h; exact h.2

theorem safeLt_suffix {m2 m : List Char} (hs : m2 <:+ m) (h : safeLt m = true) :
    safeLt m2 = true := by
  obtain ⟨t, rfl⟩ := hs
  induction t with
  | nil => simpa using h
  | cons c t ih => exact ih (safeLt_tail h)

theorem safeLt_append {x y : List Char} (hx : safeLt x = true) (hy : safeLt y = true) :
    safeLt (x ++ y) = true := by
  induction x with
  | nil => simpa using hy
  | cons c x ih =>
    have ht := ih (safeLt_tail hx)
    cases x with
    | nil =>
      have hc : (c != '<') = true := by simpa [safeLt] using hx
      cases y with
      | nil => simpa [safeLt] using hc
      | cons d r =>
        simp only [List.singleton_append, safeLt, hc, Bool.true_or, Bool.true_and]; exact hy
    | cons d x =>
      simp only [safeLt, Bool.and_eq_true] at hx
      simp only [List.cons_append, safeLt, Bool.and_eq_true]
      exact ⟨hx.1, by simpa using ht⟩

theorem safeLt_of_no_lt {l : List Char} (h : ∀ c ∈ l, c ≠ '<') : safeLt l = true := by
  induction l with
  | nil => rfl
  | cons c l ih =>
    have hc : (c != '<') = true := by simpa using h c (by simp)
    have hl := ih (fun d hd => h d (by simp [hd]))
    cases l with
    | nil => simpa [safeLt] using hc
    | cons d r => simp only [safeLt, hc, Bool.true_or, Bool.true_and]; exact hl

/-- Escaped text has no `<`. -/
theorem escapeChar_no_lt (x c : Char) (h : c ∈ escapeChar x) : c ≠ '<' := by
  unfold escapeChar at h
  split_ifs at h with h1 h2 h3 h4 h5 h6 h7 h8 h9
  all_goals first
    | (simp only [List.mem_cons, List.mem_singleton, List.not_mem_nil, or_false] at h
       rcases h with h | h | h | h | h <;> (subst h; decide))
    | (simp only [List.mem_cons, List.mem_singleton, List.not_mem_nil, or_false] at h
       rcases h with h | h | h | h <;> (subst h; decide))
    | (simp only [List.mem_singleton] at h; subst h; exact h4)
    | (simp only [List.mem_singleton] at h; subst h; decide)

theorem escapeString_no_lt (s : String) : ∀ c ∈ escapeString s, c ≠ '<' := by
  intro c hc
  simp only [escapeString, List.mem_flatMap] at hc
  obtain ⟨x, _, hx⟩ := hc
  exact escapeChar_no_lt x c hx

theorem safeLt_escapeString (s : String) : safeLt (escapeString s) = true :=
  safeLt_of_no_lt (escapeString_no_lt s)

/-! ## the serialized request -/

theorem element_eq (name : String) (content : List Char) :
    element name content =
      ('<' :: name.data ++ ['>']) ++ (content ++ ('<' :: '/' :: name.data ++ ['>'])) := by
  simp [element]

theorem safeLt_element {name : String} {content : List Char}
    (h1 : safeLt ('<' :: name.data ++ ['>']) = true)
    (h2 : safeLt ('<' :: '/' :: name.data ++ ['>']) = true)
    (hc : safeLt content = true) : safeLt (element name content) = true := by
  rw [element_eq]
  exact safeLt_append h1 (safeLt_append hc h2)

theorem safeLt_omitemptyString (name : String) (v : String)
    (h1 : safeLt ('<' :: name.data ++ ['>']) = true)
    (h2 : safeLt ('<' :: '/' :: name.data ++ ['>']) = true) :
    safeLt (omitemptyString name v) = true := by
  unfold omitemptyString
  split
  · rfl
  · exact safeLt_element h1 h2 (safeLt_escapeString v)

theorem safeLt_marshalAliasFields (rr : RRSet) : safeLt (marshalAliasFields rr) = true := by
  unfold marshalAliasFields
  refine safeLt_append (safeLt_append (safeLt_omitemptyString "HostedZoneId" _
    (by decide) (by decide)) (safeLt_omitemptyString "DNSName" _
    (by decide) (by decide))) ?_
  split
  · decide
  · rfl

theorem safeLt_marshalAliasTarget_tail (rr : RRSet) :
    safeLt (marshalAliasTarget rr).tail = true := by
  have h : (marshalAliasTarget rr).tail =
      "AliasTarget>".data ++ (marshalAliasFields rr ++ "</AliasTarget>".data) := by
    simp [marshalAliasTarget, element]
  rw [h]
  exact safeLt_append (by decide) (safeLt_append (safeLt_marshalAliasFields rr) (by decide))

/-- A pattern that starts `<A` or `<W` has no occurrence starting in a safe text. -/
theorem no_match_in_safeLt {old m2 b : List Char} {c : Char} {rest : List Char}
    (hold : old = '<' :: c :: rest) (hc : c = 'A' ∨ c = 'W')
    (hne : m2 ≠ []) (hs : safeLt m2 = true) : ¬ old <+: m2 ++ b := by
  subst hold
  intro hp
  cases m2 with
  | nil => exact hne rfl
  | cons x m3 =>
    have hx : x = '<' := by
      obtain ⟨t, ht⟩ := hp
      simp only [List.cons_append, List.cons.injEq] at ht
      exact ht.1.symm
    subst hx
    cases m3 with
    | nil => simp [safeLt] at hs
    | cons y m4 =>
      have hy : y = c := by
        obtain ⟨t, ht⟩ := hp
        simp only [List.cons_append, List.cons.injEq] at ht
        exact ht.2.1.symm
      subst hy
      simp only [safeLt, Bool.and_eq_true] at hs
      rcases hc with h | h <;> (subst h; simp at hs)

theorem no_match_of_startsApart {old q r : List Char} (h : startsApart old q = true)
    {k : Nat} (hk : k < old.length) : ¬ old.drop k <+: q ++ r := by
  intro hp
  have hq : q <+: q ++ r := List.prefix_append q r
  unfold startsApart at h
  rw [List.all_eq_true] at h
  have hk2 := h k (List.mem_range.mpr hk)
  simp only [Bool.not_eq_true', Bool.or_eq_false_iff] at hk2
  rcases List.prefix_or_prefix_of_prefix hp hq with h1 | h1
  · have := List.isPrefixOf_iff_prefix.mpr h1
    rw [hk2.1] at this; exact Bool.noConfusion this
  · have := List.isPrefixOf_iff_prefix.mpr h1
    rw [hk2.2] at this; exact Bool.noConfusion this

/-- A piece `q ++ r` of the text is still there after every occurrence of
`old` has been removed, when `old` starts `<A` or `<W`, no shift of `old`
lines up with `q`, and the rest of the piece is safe. -/
theorem replaceFrom_keeps_piece {old q r data : List Char} (c : Char) (rest : List Char)
    (hold : old = '<' :: c :: rest) (hc : c = 'A' ∨ c = 'W')
    (hq : startsApart old q = true) (hqne : q ≠ [])
    (hsafe : safeLt ((q ++ r).tail) = true)
    (hm : q ++ r <:+: data) : q ++ r <:+: replaceFrom old [] 0 data := by
  obtain ⟨a, b, rfl⟩ := hm
  have hne : old ≠ [] := by rw [hold]; simp
  have hS : ∀ k, 0 < k → k < old.length → ¬ old.drop k <+: (q ++ r) ++ b := by
    intro k _ hk
    rw [List.append_assoc]
    exact no_match_of_startsApart hq hk
  have hI : ∀ m2, m2 ≠ [] → m2 <:+ (q ++ r) → ¬ old <+: m2 ++ b := by
    intro m2 hm2 hs
    cases q with
    | nil => exact absurd rfl hqne
    | cons x q1 =>
      rw [List.cons_append, List.suffix_cons_iff] at hs
      rcases hs with h | h
      · subst h
        have := no_match_of_startsApart (r := r ++ b) hq (List.length_pos.mpr hne)
        simpa using this
      · exact no_match_in_safeLt hold hc hm2 (safeLt_suffix h (by simpa using hsafe))
  obtain ⟨a2, h2⟩ := replaceFrom_keep old [] (q ++ r) b hne hS hI a.length a (Nat.le_refl _)
  rw [List.append_assoc a, h2]
  exact List.infix_append' _ _ _

theorem content_in_element (name : String) (content : List Char) :
    content <:+: element name content := by
  rw [element_eq]; exact List.infix_append' _ _ _

theorem marshalChange_in_changes {c : RRSetChange} {changes : List RRSetChange}
    (hc : c ∈ changes) : marshalChange c <:+: changes.flatMap marshalChange := by
  obtain ⟨l1, l2, rfl⟩ := List.append_of_mem hc
  rw [List.flatMap_append, List.flatMap_cons]
  exact List.infix_append' _ _ _

/-- The `AliasTarget` element of every change is part of the marshalled
request. -/
theorem marshalAliasTarget_in_data (r : ChangeRRSetRequest) {c : RRSetChange}
    (hc : c ∈ r.Changes) :
    marshalAliasTarget c.RRSet <:+: (marshalChangeRRSetRequest r).data := by
  have h1 : marshalAliasTarget c.RRSet <:+: marshalRRSet c.RRSet := List.infix_append _ _ _
  have h2 := content_in_element "ResourceRecordSet" (marshalRRSet c.RRSet)
  have h3 : element "ResourceRecordSet" (marshalRRSet c.RRSet) <:+: marshalChange c :=
    ((List.suffix_append _ _).isInfix).trans (content_in_element "Change" _)
  have h4 := marshalChange_in_changes hc
  have h5 := content_in_element "Changes" (r.Changes.flatMap marshalChange)
  have h6 : element "Changes" (r.Changes.flatMap marshalChange) <:+:
      element "ChangeBatch" (element "Comment" (escapeString r.Comment) ++
        element "Changes" (r.Changes.flatMap marshalChange)) :=
    ((List.suffix_append _ _).isInfix).trans (content_in_element "ChangeBatch" _)
  have h7 : element "ChangeBatch" (element "Comment" (escapeString r.Comment) ++
        element "Changes" (r.Changes.flatMap marshalChange)) <:+:
      (marshalChangeRRSetRequest r).data := List.infix_append _ _ _
  exact h1.trans (h2.trans (h3.trans (h4.trans (h5.trans (h6.trans h7)))))

/-- The body text, as characters, for each setting of the flag. -/
theorem payload_data_true (data : String) :
    (payload true data).data =
      xmlHeader.data ++ replaceFrom "<AliasTarget></AliasTarget>".data [] 0 data.data := by
  simp [payload, stringsReplace]

theorem payload_data_false (data : String) :
    (payload false data).data =
      xmlHeader.data ++ replaceFrom "<Weight>0</Weight>".data [] 0 data.data := by
  simp [payload, stringsReplace]

/-- The `AliasTarget` element as marshalled is the expected text. -/
theorem marshalAliasTarget_eq_text (rr : RRSet) :
    marshalAliasTarget rr = aliasTargetText rr := by
  unfold marshalAliasTarget marshalAliasFields omitemptyString aliasTargetText
  by_cases hz : rr.HostedZoneId = "" <;> by_cases hd : rr.DNSName = "" <;>
    cases rr.EvaluateTargetHealth <;> simp [hz, hd, element]

/-- The start of an `AliasTarget` element that has a child. -/
theorem marshalAliasTarget_start (rr : RRSet) (h : rr.HostedZoneId ≠ "" ∨ rr.DNSName ≠ "") :
    ∃ x r, (x = 'H' ∨ x = 'D') ∧
      marshalAliasTarget rr = ("<AliasTarget><".data ++ [x]) ++ r := by
  by_cases hz : rr.HostedZoneId = ""
  · have hd : rr.DNSName ≠ "" := by
      rcases h with h | h
      · exact absurd hz h
      · exact h
    refine ⟨'D', "NSName>".data ++ (escapeString rr.DNSName ++ ("</DNSName>".data ++
      ((if rr.EvaluateTargetHealth then element "EvaluateTargetHealth" "true".data else []) ++
        "</AliasTarget>".data))), Or.inr rfl, ?_⟩
    simp [marshalAliasTarget, marshalAliasFields, omitemptyString, hz, hd, element]
  · refine ⟨'H', "ostedZoneId>".data ++ (escapeString rr.HostedZoneId ++
      ("</HostedZoneId>".data ++ (omitemptyString "DNSName" rr.DNSName ++
      ((if rr.EvaluateTargetHealth then element "EvaluateTargetHealth" "true".data else []) ++
        "</AliasTarget>".data)))), Or.inl rfl, ?_⟩
    simp [marshalAliasTarget, marshalAliasFields, omitemptyString, hz, element]

/-- The `AliasTarget` element of a record set with an alias target is in the
body text, whatever the flag. -/
theorem payload_keeps_alias (includeWeight : Bool) (r : ChangeRRSetRequest) {c : RRSetChange}
    (hc : c ∈ r.Changes) (h : c.RRSet.HostedZoneId ≠ "" ∨ c.RRSet.DNSName ≠ "") :
    marshalAliasTarget c.RRSet <:+:
      (payload includeWeight (marshalChangeRRSetRequest r)).data := by
  have hin := marshalAliasTarget_in_data r hc
  have hsafe := safeLt_marshalAliasTarget_tail c.RRSet
  obtain ⟨x, rest, hx, hm⟩ := marshalAliasTarget_start c.RRSet h
  rw [hm] at hin hsafe ⊢
  cases includeWeight with
  | true =>
    rw [payload_data_true]
    refine (replaceFrom_keeps_piece 'A' "liasTarget></AliasTarget>".data
      rfl (Or.inl rfl) ?_ (by simp) hsafe hin).trans (List.suffix_append _ _).isInfix
    rcases hx with hx | hx <;> (subst hx; decide)
  | false =>
    rw [payload_data_false]
    refine (replaceFrom_keeps_piece 'W' "eight>0</Weight>".data
      rfl (Or.inr rfl) ?_ (by simp) hsafe hin).trans (List.suffix_append _ _).isInfix
    rcases hx with hx | hx <;> (subst hx; decide)

/-- With the flag off, the empty `AliasTarget` element of a record set
without an alias target is still in the body text. -/
theorem payload_false_keeps_empty_alias (r : ChangeRRSetRequest) {c : RRSetChange}
    (hc : c ∈ r.Changes) (hz : c.RRSet.HostedZoneId = "") (hd : c.RRSet.DNSName = "")
    (he : c.RRSet.EvaluateTargetHealth = false) :
    "<AliasTarget></AliasTarget>".data <:+:
      (payload false (marshalChangeRRSetRequest r)).data := by
  have hin := marshalAliasTarget_in_data r hc
  have hsafe := safeLt_marshalAliasTarget_tail c.RRSet
  have hm : marshalAliasTarget c.RRSet = "<A".data ++ "liasTarget></AliasTarget>".data := by
    simp [marshalAliasTarget, marshalAliasFields, omitemptyString, hz, hd, he, element]
  have ht : "<AliasTarget></AliasTarget>".data = "<A".data ++ "liasTarget></AliasTarget>".data :=
    by decide
  rw [hm] at hin hsafe
  rw [ht, payload_data_false]
  exact (replaceFrom_keeps_piece 'W' "eight>0</Weight>".data
    rfl (Or.inr rfl) (by decide) (by simp) hsafe hin).trans (List.suffix_append _ _).isInfix

/-! ## the retry on 403 (C1, C2, C9, C8) -/

/-- C1 (code, in general): when the first attempt is answered with status
403 and a body, `run` returns what decoding that body into the response
returns: the retried call at `try = 1` runs first and its response object is
the one decoded into, but the error it returns is dropped. -/
theorem run_after_forbidden {σ β ρ : Type} (r53 : Route53 σ) (lib : Lib σ β ρ)
    (req : request β) (res : ρ) (st : σ) {st1 : σ} {hreq : HTTPRequest} {hres : HTTPResponse}
    {body : String}
    (hb : buildRequest r53 lib req st = .ok hreq)
    (hd : lib.Do st hreq = (st1, .ok hres)) (hr : hres.Body = .ok body)
    (hs : hres.StatusCode = 403) :
    (run r53 lib req res st).err =
        (lib.Decode body (doRun r53 lib req res 1 (r53.updateAuth st1)).res).2 ∧
      (run r53 lib req res st).res =
        (lib.Decode body (doRun r53 lib req res 1 (r53.updateAuth st1)).res).1 := by
  rw [run, doRun_forbidden_first r53 lib req res st hb hd hr hs]
  exact ⟨rfl, rfl⟩

/-- C1 at the failing input: the transport answers 403 with an error document
and then 200 with a list document. The retried call succeeds and has decoded
the record into the response, but `run` returns the error of decoding the
body of the 403, and `ListRRSets` returns that error with no records. -/
theorem run_after_forbidden_witness :
    (doRun (sampleRoute53 false) (listWire forbiddenThenOk).lib (listRequest "Z1") {} 1 1).err
        = none ∧
      (doRun (sampleRoute53 false) (listWire forbiddenThenOk).lib (listRequest "Z1") {} 1 1).res.RRSets
        = [sampleRecord] ∧
      (run (sampleRoute53 false) (listWire forbiddenThenOk).lib (listRequest "Z1") {} 0).err
        = some "expected element type <ListResourceRecordSetsResponse> but have <ErrorResponse>" ∧
      (ListRRSets (sampleRoute53 false) (listWire forbiddenThenOk) "Z1" 0).1
        = ([], some "expected element type <ListResourceRecordSetsResponse> but have <ErrorResponse>") := by
  have h1 := (run_after_forbidden (sampleRoute53 false) (listWire forbiddenThenOk).lib
    (listRequest "Z1") {} 0 rfl rfl rfl rfl).1
  have h2 := doRun_ok (sampleRoute53 false) (listWire forbiddenThenOk).lib
    (listRequest "Z1") {} 1 1 rfl rfl rfl rfl
  have h3 : (run (sampleRoute53 false) (listWire forbiddenThenOk).lib (listRequest "Z1") {} 0).err
      = some "expected element type <ListResourceRecordSetsResponse> but have <ErrorResponse>" := by
    rw [h1]; decide
  refine ⟨by rw [h2]; decide, by rw [h2]; decide, h3, ?_⟩
  simp only [ListRRSets, h3]

/-- C2 (code at the failing input): the transport answers 403 on both
attempts. The retried call returns the error built from the second body, but
`run` returns the error of decoding the first body into the response. -/
theorem run_forbidden_twice_drops_second_error :
    (doRun (sampleRoute53 false) (listWire forbiddenTwice).lib (listRequest "Z1") {} 1 1).err
        = some "SignatureDoesNotMatch: The request signature we calculated does not match the signature you provided" ∧
      (run (sampleRoute53 false) (listWire forbiddenTwice).lib (listRequest "Z1") {} 0).err
        = some "expected element type <ListResourceRecordSetsResponse> but have <ErrorResponse>" := by
  have h1 := doRun_forbidden_first (sampleRoute53 false) (listWire forbiddenTwice).lib
    (listRequest "Z1") {} 0 rfl rfl rfl rfl
  have h2 := doRun_remote (sampleRoute53 false) (listWire forbiddenTwice).lib
    (listRequest "Z1") {} 1 1 rfl rfl rfl (by decide) (by decide)
  refine ⟨by rw [h2]; decide, by rw [run, h1]; decide⟩

/-- C9 (code at the failing input): the transport answers 403 with a body
that decodes into the response, and the retried attempt fails in the
transport. The retried call returns the transport error, and `run` returns
no error. -/
theorem run_swallows_retry_error :
    (doRun (sampleRoute53 false) (listWire forbiddenThenReset).lib (listRequest "Z1") {} 1 1).err
        = some "read tcp: connection reset by peer" ∧
      (run (sampleRoute53 false) (listWire forbiddenThenReset).lib (listRequest "Z1") {} 0).err
        = none := by
  have h1 := doRun_forbidden_first (sampleRoute53 false) (listWire forbiddenThenReset).lib
    (listRequest "Z1") {} 0 rfl rfl rfl rfl
  have h2 := doRun_do_error (sampleRoute53 false) (listWire forbiddenThenReset).lib
    (listRequest "Z1") {} 1 1 rfl rfl
  refine ⟨by rw [h2], by rw [run, h1]; decide⟩

/-- C8 (counterexample): the first attempt is answered with status 403 but
its body cannot be read; `run` makes one network call and no refresh. -/
theorem run_unread_forbidden_no_refresh :
    (firstAnswer (sampleRoute53 false) (listWire forbiddenUnread).lib
        (listRequest "Z1") 0).map (fun hres => hres.StatusCode) = some 403 ∧
      refreshes (run (sampleRoute53 false) (listWire forbiddenUnread).lib
        (listRequest "Z1") {} 0).events = 0 ∧
      netCalls (run (sampleRoute53 false) (listWire forbiddenUnread).lib
        (listRequest "Z1") {} 0).events = 1 := by
  have h1 := doRun_read_error (sampleRoute53 false) (listWire forbiddenUnread).lib
    (listRequest "Z1") {} 0 0 rfl rfl rfl
  refine ⟨by decide, by rw [run, h1]; rfl, by rw [run, h1]; rfl⟩

/-- C8 (amended): a call to `run` makes at most two network calls and at most
one credential refresh; the refresh and the second network call happen
exactly when the first attempt is answered with status 403 and its body is
read in full, otherwise there is no refresh and at most one network call; and
a call at `try = 1` never refreshes and makes at most one network call,
whatever status it is answered with. -/
theorem run_attempts_bounded {σ β ρ : Type} (r53 : Route53 σ) (lib : Lib σ β ρ) (req : request β)
    (res : ρ) (st : σ) :
    netCalls (run r53 lib req res st).events ≤ 2 ∧
      refreshes (run r53 lib req res st).events ≤ 1 ∧
      ((refreshes (run r53 lib req res st).events = 1 ∧
          netCalls (run r53 lib req res st).events = 2) ↔
        firstForbidden r53 lib req st = true) ∧
      ((refreshes (run r53 lib req res st).events = 0 ∧
          netCalls (run r53 lib req res st).events ≤ 1) ↔
        firstForbidden r53 lib req st = false) ∧
      (∀ st1, refreshes (doRun r53 lib req res 1 st1).events = 0 ∧
          netCalls (doRun r53 lib req res 1 st1).events ≤ 1) := by
  cases h : firstForbidden r53 lib req st with
  | true =>
    have hf := run_events_forbidden r53 lib req res st h
    refine ⟨by omega, by omega, ⟨fun _ => rfl, fun _ => hf⟩, ⟨fun hz => ?_, fun hn => ?_⟩,
      doRun_retry_events r53 lib req res⟩
    · omega
    · exact Bool.noConfusion hn
  | false =>
    have hf := run_events_not_forbidden r53 lib req res st h
    refine ⟨by omega, by omega, ⟨fun hz => ?_, fun hh => ?_⟩, ⟨fun _ => rfl, fun _ => hf⟩,
      doRun_retry_events r53 lib req res⟩
    · omega
    · exact Bool.noConfusion hh

/-! ## error statuses (C6) -/

/-- C6: when an attempt is answered with a status that is neither 200 nor a
first-attempt 403, `doRun` returns an error (being total, it cannot crash):
"Code: Message" of the decoded `errorResponse` when the body decodes, and
"could not parse: " followed by the raw body when it does not. -/
theorem doRun_error_status {σ β ρ : Type} (r53 : Route53 σ) (lib : Lib σ β ρ) (req : request β)
    (res : ρ) (try_ : Nat) (st : σ) {st1 : σ} {hreq : HTTPRequest} {hres : HTTPResponse}
    (hb : buildRequest r53 lib req st = .ok hreq)
    (hd : lib.Do st hreq = (st1, .ok hres))
    (h200 : hres.StatusCode ≠ 200) (h403 : ¬ (hres.StatusCode = 403 ∧ try_ = 0)) :
    (doRun r53 lib req res try_ st).err ≠ none ∧
      (∀ body eres, hres.Body = .ok body → lib.DecodeError body = .ok eres →
        (doRun r53 lib req res try_ st).err = some (eres.Code ++ ": " ++ eres.Message)) ∧
      (∀ body e, hres.Body = .ok body → lib.DecodeError body = .error e →
        (doRun r53 lib req res try_ st).err = some ("could not parse: " ++ body)) := by
  refine ⟨?_, ?_, ?_⟩
  · cases hr : hres.Body with
    | error e => rw [doRun_read_error r53 lib req res try_ st hb hd hr]; simp
    | ok body =>
      rw [doRun_remote r53 lib req res try_ st hb hd hr h200 h403]
      cases lib.DecodeError body <;> simp
  · intro body eres hr he
    rw [doRun_remote r53 lib req res try_ st hb hd hr h200 h403, he]
  · intro body e hr he
    rw [doRun_remote r53 lib req res try_ st hb hd hr h200 h403, he]

/-- C6 at concrete inputs: a 403 on the retried attempt with an error
document, and a 502 on the first attempt with a body that is not XML. -/
theorem doRun_error_status_witness :
    (doRun (sampleRoute53 false) (listWire forbiddenTwice).lib (listRequest "Z1") {} 1 1).err
        = some ("SignatureDoesNotMatch" ++ ": " ++
            "The request signature we calculated does not match the signature you provided") ∧
      (doRun (sampleRoute53 false) (listWire [.ok ⟨502, .ok gatewayBody⟩]).lib
          (listRequest "Z1") {} 0 0).err = some ("could not parse: " ++ gatewayBody) :=
  ⟨(doRun_error_status (sampleRoute53 false) (listWire forbiddenTwice).lib (listRequest "Z1")
      {} 1 1 rfl rfl (by decide) (by decide)).2.1 signatureBody
      { Type_ := "Sender", Code := "SignatureDoesNotMatch",
        Message := "The request signature we calculated does not match the signature you provided",
        RequestID := "r-2" } rfl rfl,
   (doRun_error_status (sampleRoute53 false) (listWire [.ok ⟨502, .ok gatewayBody⟩]).lib
      (listRequest "Z1") {} 0 0 rfl rfl (by decide) (by decide)).2.2 gatewayBody "EOF" rfl
      rfl⟩

/-! ## the record-set calls (C7, C10) -/

/-- C7: when `run` decodes a list response without error and the response
says `IsTruncated`, `ListRRSets` returns the error "cannot handle truncated
responses" and an empty record list, whatever records were decoded. -/
theorem ListRRSets_truncated {σ : Type} (r53 : Route53 σ) (wire : Wire σ ListRRSetResponse)
    (zoneId : String) (st : σ)
    (hok : (run r53 wire.lib (listRequest zoneId) {} st).err = none)
    (ht : (run r53 wire.lib (listRequest zoneId) {} st).res.IsTruncated = true) :
    (ListRRSets r53 wire zoneId st).1 = ([], some "cannot handle truncated responses") := by
  simp only [ListRRSets, hok, ht, if_true]

/-- C7 at a concrete input: a 200 with a truncated list document that
carries one record. -/
theorem ListRRSets_truncated_witness :
    (run (sampleRoute53 false) (listWire [.ok ⟨200, .ok truncatedBody⟩]).lib
        (listRequest "Z1") {} 0).res.RRSets = [sampleRecord] ∧
      (ListRRSets (sampleRoute53 false) (listWire [.ok ⟨200, .ok truncatedBody⟩]) "Z1" 0).1
        = ([], some "cannot handle truncated responses") := by
  have h := doRun_ok (sampleRoute53 false) (listWire [.ok ⟨200, .ok truncatedBody⟩]).lib
    (listRequest "Z1") {} 0 0 rfl rfl rfl rfl
  exact ⟨by rw [run, h]; decide,
    ListRRSets_truncated (sampleRoute53 false) (listWire [.ok ⟨200, .ok truncatedBody⟩]) "Z1" 0
      (by rw [run, h]; decide) (by rw [run, h]; decide)⟩

/-- C10: whenever `ChangeRRSet` returns an error its `ChangeInfo` is the zero
value, and whenever `ListRRSets` returns an error its record list is empty,
whatever `run` left in the response object. -/
theorem error_carries_no_result {σ CI : Type} [Inhabited CI] (r53 : Route53 σ)
    (wireC : Wire σ (ChangeRRSetsResponse CI)) (wireL : Wire σ ListRRSetResponse)
    (zoneId : String) (changes : List RRSetChange) (comment : String) (st : σ) :
    ((ChangeRRSet r53 wireC zoneId changes comment st).1.2 ≠ none →
        (ChangeRRSet r53 wireC zoneId changes comment st).1.1 = default) ∧
      ((ListRRSets r53 wireL zoneId st).1.2 ≠ none →
        (ListRRSets r53 wireL zoneId st).1.1 = []) := by
  constructor
  · intro h
    simp only [ChangeRRSet] at h ⊢
    cases hrun : (run r53 wireC.lib (changeRequest zoneId changes comment)
        ({ ChangeInfo := default } : ChangeRRSetsResponse CI) st).err with
    | none => simp [hrun] at h
    | some err => simp
  · intro h
    simp only [ListRRSets] at h ⊢
    cases hrun : (run r53 wireL.lib (listRequest zoneId) ({} : ListRRSetResponse) st).err with
    | none =>
      cases ht : (run r53 wireL.lib (listRequest zoneId)
          ({} : ListRRSetResponse) st).res.IsTruncated with
      | false => simp [hrun, ht] at h
      | true => simp [ht]
    | some err => simp

/-- C10 at concrete inputs: both calls get a 403 and then a 200; the retried
attempt has decoded its body into the response object, the call returns an
error, and the result returned with it is the zero value. -/
theorem error_carries_no_result_witness :
    (doRun (sampleRoute53 false) (changeWire forbiddenThenChanged).lib
        (changeRequest "Z1" [⟨"CREATE", sampleRecord⟩] "add a")
        { ChangeInfo := default } 1 1).res.ChangeInfo
        = { Id := "/change/C1", Status := "PENDING", SubmittedAt := "2013-01-01T00:00:00Z" } ∧
      (ChangeRRSet (sampleRoute53 false) (changeWire forbiddenThenChanged) "Z1"
        [⟨"CREATE", sampleRecord⟩] "add a" 0).1.2 ≠ none ∧
      (ChangeRRSet (sampleRoute53 false) (changeWire forbiddenThenChanged) "Z1"
        [⟨"CREATE", sampleRecord⟩] "add a" 0).1.1 = default ∧
      (ListRRSets (sampleRoute53 false) (listWire forbiddenThenOk) "Z1" 0).1.2 ≠ none ∧
      (ListRRSets (sampleRoute53 false) (listWire forbiddenThenOk) "Z1" 0).1.1 = [] := by
  have h1 := doRun_forbidden_first (sampleRoute53 false) (changeWire forbiddenThenChanged).lib
    (changeRequest "Z1" [⟨"CREATE", sampleRecord⟩] "add a") { ChangeInfo := default } 0
    rfl rfl rfl rfl
  have h2 := doRun_ok (sampleRoute53 false) (changeWire forbiddenThenChanged).lib
    (changeRequest "Z1" [⟨"CREATE", sampleRecord⟩] "add a") { ChangeInfo := default } 1 1
    rfl rfl rfl rfl
  have h3 := doRun_forbidden_first (sampleRoute53 false) (listWire forbiddenThenOk).lib
    (listRequest "Z1") {} 0 rfl rfl rfl rfl
  have hC : (ChangeRRSet (sampleRoute53 false) (changeWire forbiddenThenChanged) "Z1"
      [⟨"CREATE", sampleRecord⟩] "add a" 0).1.2 ≠ none := by
    have : (run (sampleRoute53 false) (changeWire forbiddenThenChanged).lib
        (changeRequest "Z1" [⟨"CREATE", sampleRecord⟩] "add a")
        ({ ChangeInfo := default } : ChangeRRSetsResponse ChangeInfo) 0).err
        = some "expected element type <ChangeResourceRecordSetsResponse> but have <ErrorResponse>" := by
      rw [run, h1]; decide
    simp only [ChangeRRSet, this]
    simp
  have hL : (ListRRSets (sampleRoute53 false) (listWire forbiddenThenOk) "Z1" 0).1.2 ≠ none := by
    have : (run (sampleRoute53 false) (listWire forbiddenThenOk).lib (listRequest "Z1") {} 0).err
        = some "expected element type <ListResourceRecordSetsResponse> but have <ErrorResponse>" := by
      rw [run, h3]; decide
    simp only [ListRRSets, this]
    simp
  exact ⟨by rw [h2]; decide, hC,
    (error_carries_no_result (sampleRoute53 false) (changeWire forbiddenThenChanged)
      (listWire forbiddenThenOk) "Z1" [⟨"CREATE", sampleRecord⟩] "add a" 0).1 hC, hL,
    (error_carries_no_result (sampleRoute53 false) (changeWire forbiddenThenChanged)
      (listWire forbiddenThenOk) "Z1" [⟨"CREATE", sampleRecord⟩] "add a" 0).2 hL⟩

/-! ## the body text (C3, C4, C5) -/

/-- The body of a change request is always built. -/
theorem sentBody_changeRequest {σ ρ : Type} (r53 : Route53 σ) (wire : Wire σ ρ)
    (zoneId : String) (changes : List RRSetChange) (comment : String) (st : σ) :
    sentBody r53 wire.lib (changeRequest zoneId changes comment) st =
      some (payload r53.IncludeWeight (marshalChangeRRSetRequest
        { XMLNS := "https://route53.amazonaws.com/doc/2012-12-12/", Comment := comment,
          Changes := changes })) := by
  simp [sentBody, buildRequest, changeRequest, Wire.lib]

/-- C3 (code, in general): with `IncludeWeight = false`, the body text of a
change batch still contains `<AliasTarget></AliasTarget>` for every record set
that has no alias target: the second replacement starts again from the
marshalled text and the first one is lost. -/
theorem empty_alias_sent_when_weight_flag_off {σ ρ : Type} (r53 : Route53 σ) (wire : Wire σ ρ)
    (zoneId : String) (changes : List RRSetChange) (comment : String) (st : σ)
    (c : RRSetChange) (hw : r53.IncludeWeight = false) (hc : c ∈ changes)
    (hz : c.RRSet.HostedZoneId = "") (hd : c.RRSet.DNSName = "")
    (he : c.RRSet.EvaluateTargetHealth = false) :
    ∃ body, sentBody r53 wire.lib (changeRequest zoneId changes comment) st = some body ∧
      Contains body "<AliasTarget></AliasTarget>" := by
  refine ⟨_, sentBody_changeRequest r53 wire zoneId changes comment st, ?_⟩
  rw [hw]
  exact payload_false_keeps_empty_alias _ hc hz hd he

/-- C3 at the failing input: one plain `A` record with weight 0 and no alias
target, `IncludeWeight = false`. -/
theorem empty_alias_sent_when_weight_flag_off_witness :
    sentBody (sampleRoute53 false) (changeWire []).lib
        (changeRequest "Z1" [⟨"CREATE", sampleRecord⟩] "") 0 =
      some "<?xml version=\"1.0\" encoding=\"UTF-8\"?>\n<ChangeResourceRecordSetsRequest xmlns=\"https://route53.amazonaws.com/doc/2012-12-12/\"><ChangeBatch><Comment></Comment><Changes><Change><Action>CREATE</Action><ResourceRecordSet><Name>a.example.com.</Name><Type>A</Type><TTL>300</TTL><ResourceRecords><ResourceRecord><Value>192.0.2.1</Value></ResourceRecord></ResourceRecords><AliasTarget></AliasTarget></ResourceRecordSet></Change></Changes></ChangeBatch></ChangeResourceRecordSetsRequest>" ∧
      ∃ body, sentBody (sampleRoute53 false) (changeWire []).lib
          (changeRequest "Z1" [⟨"CREATE", sampleRecord⟩] "") 0 = some body ∧
        Contains body "<AliasTarget></AliasTarget>" :=
  ⟨by decide,
   empty_alias_sent_when_weight_flag_off (sampleRoute53 false) (changeWire []) "Z1"
     [⟨"CREATE", sampleRecord⟩] "" 0 ⟨"CREATE", sampleRecord⟩ rfl (by simp) rfl rfl rfl⟩

/-- C4 (code at the failing input): with `IncludeWeight = true`, a record set
whose weight is 0 is sent without any `Weight` element: the field is tagged
`omitempty`, so the marshaller never writes a zero weight. -/
theorem zero_weight_not_sent_when_weight_flag_on :
    sentBody (sampleRoute53 true) (changeWire []).lib
        (changeRequest "Z1" [⟨"CREATE", weightedRecord⟩] "") 0 =
      some "<?xml version=\"1.0\" encoding=\"UTF-8\"?>\n<ChangeResourceRecordSetsRequest xmlns=\"https://route53.amazonaws.com/doc/2012-12-12/\"><ChangeBatch><Comment></Comment><Changes><Change><Action>CREATE</Action><ResourceRecordSet><Name>w.example.com.</Name><Type>A</Type><TTL>60</TTL><ResourceRecords><ResourceRecord><Value>192.0.2.1</Value></ResourceRecord></ResourceRecords><SetIdentifier>blue</SetIdentifier></ResourceRecordSet></Change></Changes></ChangeBatch></ChangeResourceRecordSetsRequest>" ∧
      ∀ body, sentBody (sampleRoute53 true) (changeWire []).lib
          (changeRequest "Z1" [⟨"CREATE", weightedRecord⟩] "") 0 = some body →
        ¬ Contains body "<Weight>0</Weight>" ∧ ¬ Contains body "<Weight>" := by
  refine ⟨by decide, ?_⟩
  intro body hb
  rw [sentBody_changeRequest] at hb
  cases hb
  exact ⟨by decide, by decide⟩

/-- C5 (counterexample): an alias record with both `HostedZoneId` and
`DNSName` set and the health flag off, `IncludeWeight = true`: the body text
has an `AliasTarget` element with two children and no
`EvaluateTargetHealth` child. -/
theorem alias_sent_without_health_child :
    sentBody (sampleRoute53 true) (changeWire []).lib
        (changeRequest "Z1" [⟨"CREATE", aliasRecord⟩] "") 0 =
      some "<?xml version=\"1.0\" encoding=\"UTF-8\"?>\n<ChangeResourceRecordSetsRequest xmlns=\"https://route53.amazonaws.com/doc/2012-12-12/\"><ChangeBatch><Comment></Comment><Changes><Change><Action>CREATE</Action><ResourceRecordSet><Name>www.example.com.</Name><Type>A</Type><TTL>0</TTL><ResourceRecords><ResourceRecord></ResourceRecord></ResourceRecords><AliasTarget><HostedZoneId>Z2FDTNDATAQYW2</HostedZoneId><DNSName>d111111abcdef8.cloudfront.net.</DNSName></AliasTarget></ResourceRecordSet></Change></Changes></ChangeBatch></ChangeResourceRecordSetsRequest>" ∧
      (aliasRecord.HostedZoneId ≠ "" ∨ aliasRecord.DNSName ≠ "") ∧
      ∀ body, sentBody (sampleRoute53 true) (changeWire []).lib
          (changeRequest "Z1" [⟨"CREATE", aliasRecord⟩] "") 0 = some body →
        ¬ Contains body "<EvaluateTargetHealth>" := by
  refine ⟨by decide, by decide, ?_⟩
  intro body hb
  rw [sentBody_changeRequest] at hb
  cases hb
  decide

/-- C5 (amended): for every record set of a change batch with `HostedZoneId`
or `DNSName` not empty, and either setting of `IncludeWeight`, the body text
contains its `AliasTarget` element, whose children are the fields that are
set: `HostedZoneId` when not empty, `DNSName` when not empty,
`EvaluateTargetHealth` (as `true`) when the flag is true; the two
replacements leave the element in place. -/
theorem alias_target_sent {σ ρ : Type} (r53 : Route53 σ) (wire : Wire σ ρ)
    (zoneId : String) (changes : List RRSetChange) (comment : String) (st : σ)
    (c : RRSetChange) (hc : c ∈ changes)
    (h : c.RRSet.HostedZoneId ≠ "" ∨ c.RRSet.DNSName ≠ "") :
    ∃ body, sentBody r53 wire.lib (changeRequest zoneId changes comment) st = some body ∧
      aliasTargetText c.RRSet <:+: body.data := by
  refine ⟨_, sentBody_changeRequest r53 wire zoneId changes comment st, ?_⟩
  rw [← marshalAliasTarget_eq_text]
  exact payload_keeps_alias r53.IncludeWeight _ hc h

/-- C5 (amended) at a concrete input: the alias record of the counterexample,
with `IncludeWeight = false`. -/
theorem alias_target_sent_witness :
    aliasTargetText aliasRecord =
        "<AliasTarget><HostedZoneId>Z2FDTNDATAQYW2</HostedZoneId><DNSName>d111111abcdef8.cloudfront.net.</DNSName></AliasTarget>".data ∧
      ∃ body, sentBody (sampleRoute53 false) (changeWire []).lib
          (changeRequest "Z1" [⟨"DELETE", sampleRecord⟩, ⟨"CREATE", aliasRecord⟩] "") 0
            = some body ∧
        aliasTargetText aliasRecord <:+: body.data :=
  ⟨by decide,
   alias_target_sent (sampleRoute53 false) (changeWire []) "Z1"
     [⟨"DELETE", sampleRecord⟩, ⟨"CREATE", aliasRecord⟩] "" 0 ⟨"CREATE", aliasRecord⟩
     (by simp) (Or.inl (by decide))⟩

end route53
